import Mathlib

/-!
Verification of the dimensional-modeling / cube-aggregation core of the
insurance-charges-analytics repository.

The embedding models pandas DataFrames shallowly:

* a cell is a `Value` (null / string / integer / exact rational standing for a
  Python float — no claim here observes float rounding);
* a `DataFrame` is an ordered list of column names together with rows, a row
  being a total function from column names to values (columns not in `cols`
  are never observed);
* a `Cube` (the terminal output of the aggregator, and the row lists handed to
  sqlite) is a plain list-of-lists table, which keeps equality decidable.

Each definition below is translated from the corresponding function of
`src/analytics_project/olap/olap_insurance_cubing.py` or
`src/analytics_project/etl_to_dw.py`; the doc comments name the source.
-/

/-- A pandas cell value.  `num` holds Python floats as exact rationals; claims
never depend on float rounding.  `null` is NaN / None / NULL. -/
inductive Value
  | null
  | str (s : String)
  | int (n : Int)
  | num (q : Rat)
deriving DecidableEq

/-- A pandas DataFrame: ordered column names plus rows.  A row is a function
from column name to value; only names in `cols` are ever observed.  This
avoids positional index arithmetic while keeping column order (which the
claims do observe) in `cols`. -/
structure DataFrame where
  cols : List String
  rows : List (String → Value)

/-- A fully materialised table (the aggregator's output, and row batches
handed to sqlite): column names plus positional rows.  Decidable equality. -/
structure Cube where
  cols : List String
  rows : List (List Value)
deriving DecidableEq

/-- Build a row function from an association list (absent names are null);
used only to write concrete test tables. -/
def rowOf (ps : List (String × Value)) : String → Value := fun c =>
  match ps.find? (fun p => p.1 == c) with
  | some p => p.2
  | none => Value.null

/-- Keep the first row carrying each key, dropping later rows whose key was
already seen: the semantics of pandas `drop_duplicates()` (keep="first")
applied through a key function.  `seen` accumulates the keys already kept. -/
def dropDupByAux {ρ κ : Type} [DecidableEq κ] (f : ρ → κ) (seen : List κ) :
    List ρ → List ρ
  | [] => []
  | r :: rs =>
      if f r ∈ seen then dropDupByAux f seen rs
      else r :: dropDupByAux f (f r :: seen) rs

/-- pandas `drop_duplicates()` (keep="first") through a key function. -/
def dropDupBy {ρ κ : Type} [DecidableEq κ] (f : ρ → κ) (l : List ρ) : List ρ :=
  dropDupByAux f [] l

/-- First-seen deduplication of a key list, skipping keys in `seen`. -/
def firstSeenAux {κ : Type} [DecidableEq κ] (seen : List κ) : List κ → List κ
  | [] => []
  | k :: ks =>
      if k ∈ seen then firstSeenAux seen ks
      else k :: firstSeenAux (k :: seen) ks

/-- First-seen deduplication of a list of keys (the key sequence that
`drop_duplicates` keeps, and the group-key sequence of the cube). -/
def firstSeen {κ : Type} [DecidableEq κ] (l : List κ) : List κ :=
  firstSeenAux [] l

/-- Aggregation-function identifiers accepted by `DataFrame.agg` in the source
(`sum`, `mean`, `count`, `min`, `max`). -/
inductive AggFunc
  | sum
  | mean
  | count
  | min
  | max
deriving DecidableEq

/-- The string pandas/our naming uses for each aggregation function. -/
def aggName : AggFunc → String
  | .sum => "sum"
  | .mean => "mean"
  | .count => "count"
  | .min => "min"
  | .max => "max"

/-- A metrics-dict entry value: either a single function given as a scalar
(`"fact_key": "count"`) or a list (`"charges": ["sum", "mean"]`). -/
inductive MetricSpec
  | one (f : AggFunc)
  | many (fs : List AggFunc)
deriving DecidableEq

/-- Flatten a metrics dict (iterated in insertion order, as Python dicts are)
into its (measure, function) pairs, in declaration order. -/
def flattenMetrics (metrics : List (String × MetricSpec)) : List (String × AggFunc) :=
  metrics.flatMap (fun p =>
    match p.2 with
    | .one f => [(p.1, f)]
    | .many fs => fs.map (fun f => (p.1, f)))

/-- Python `col.replace("__", "_")`: one left-to-right non-overlapping pass
collapsing each `"__"` to `"_"`. -/
def collapseDunder : List Char → List Char
  | [] => []
  | [c] => [c]
  | c1 :: c2 :: rest =>
      if c1 = '_' ∧ c2 = '_' then '_' :: collapseDunder rest
      else c1 :: collapseDunder (c2 :: rest)

/-- Python `col.rstrip("_")`: drop every trailing underscore. -/
def rstripUnderscores (cs : List Char) : List Char :=
  (cs.reverse.dropWhile (fun ch => ch == '_')).reverse

/-- The per-name cleanup in `generate_column_names`:
`col.replace("__", "_").rstrip("_")`. -/
def cleanName (s : String) : String :=
  ⟨rstripUnderscores (collapseDunder s.data)⟩

/-- `generate_column_names` from `olap_insurance_cubing.py` (lines 65–81):
copy the dimensions list, append `"{column}_{func}"` per (measure, function)
pair (a scalar spec contributing exactly one name), then apply the cleanup to
every name. -/
def generate_column_names (dimensions : List String) (metrics : List (String × MetricSpec)) :
    List String :=
  (dimensions ++ (flattenMetrics metrics).map (fun p => p.1 ++ "_" ++ aggName p.2)).map cleanName

/-- The rational values among a list of cells (pandas numeric aggregation
skips nulls; non-numeric cells are not observed by any claim). -/
def ratsOf (vs : List Value) : List Rat :=
  vs.filterMap (fun v => match v with | .num q => some q | _ => none)

/-- One aggregation function applied to the cells of a measure column within
one group, with pandas semantics: `count` counts non-null cells; `sum`,
`mean`, `min`, `max` run over the (non-null) numeric cells, `mean`/`min`/`max`
of an empty column being null (NaN). -/
def aggValue : AggFunc → List Value → Value
  | .count, vs => .int (vs.filter (fun v => decide (v ≠ Value.null))).length
  | .sum, vs => .num ((ratsOf vs).foldl (fun a b => a + b) 0)
  | .mean, vs =>
      match ratsOf vs with
      | [] => .null
      | q :: qs => .num ((qs.foldl (fun a b => a + b) q) / (qs.length + 1 : Rat))
  | .min, vs =>
      match ratsOf vs with
      | [] => .null
      | q :: qs => .num (qs.foldl (fun a b => if b < a then b else a) q)
  | .max, vs =>
      match ratsOf vs with
      | [] => .null
      | q :: qs => .num (qs.foldl (fun a b => if a < b then b else a) q)

/-- Errors raised out of `create_olap_cube`.  The source raises pandas
`KeyError` (the spec's `DimensionNotFoundError`) naming the missing columns,
and pandas `ValueError` for `groupby([])`. -/
inductive CubeError
  | dimensionNotFound (missing : List String)
  | noGroupKeys
deriving DecidableEq

/-- The rows of `df` with no null in any dimension column: `groupby(...,
dropna=True)` excludes any row whose key tuple contains NaN. -/
def validRows (df : DataFrame) (dimensions : List String) : List (String → Value) :=
  df.rows.filter (fun r => dimensions.all (fun d => decide (r d ≠ Value.null)))

/-- `create_olap_cube` from `olap_insurance_cubing.py` (lines 84–109):
return an *empty, column-less* frame for empty input; otherwise group by the
dimension columns (dropping null-keyed rows), apply the metrics dict, flatten,
and overwrite the column labels with `generate_column_names`.  A dimension or
measure name that is not available raises KeyError (modelled as
`dimensionNotFound` naming the missing columns; a measure that is itself a
grouping key is likewise unavailable to `agg` in pandas).  Group order is
modelled as first-seen (pandas sorts group keys; no claim observes row
order, which the spec leaves unspecified). -/
def create_olap_cube (data_df : DataFrame) (dimensions : List String)
    (metrics : List (String × MetricSpec)) : Except CubeError Cube :=
  if data_df.rows.isEmpty then .ok ⟨[], []⟩
  else if dimensions.isEmpty then .error .noGroupKeys
  else
    let missingDims := dimensions.filter (fun d => decide (d ∉ data_df.cols))
    if ¬ missingDims.isEmpty then .error (.dimensionNotFound missingDims)
    else
      let avail := data_df.cols.filter (fun c => decide (c ∉ dimensions))
      let missingMeas := (metrics.map (fun p => p.1)).filter (fun m => decide (m ∉ avail))
      if ¬ missingMeas.isEmpty then .error (.dimensionNotFound missingMeas)
      else
        let valid := validRows data_df dimensions
        let keys := firstSeen (valid.map (fun r => dimensions.map r))
        let rows := keys.map (fun k =>
          let grp := valid.filter (fun r => decide (dimensions.map r = k))
          k ++ (flattenMetrics metrics).map (fun p => aggValue p.2 (grp.map (fun r => r p.1))))
        .ok ⟨generate_column_names dimensions metrics, rows⟩

/-- Errors raised out of the ETL (`etl_to_dw.py`).  `schemaError` models the
`ValueError` raised by the `build_dim_*` functions (the spec's `SchemaError`);
`keyError` a pandas `KeyError` on column selection; `mergeError` the pandas
`MergeError` of a merge with an empty key list; `integrityError` a sqlite3
`IntegrityError` (NOT NULL constraint violation) during insertion. -/
inductive ETLError
  | schemaError (msg : String)
  | keyError (msg : String)
  | mergeError (msg : String)
  | integrityError (msg : String)
deriving DecidableEq

/-- The declared column set each dimension grouping may use.  Filtering by
presence in `df` gives the columns a build actually selects. -/
def presentCols (declared : List String) (df : DataFrame) : List String :=
  declared.filter (fun c => decide (c ∈ df.cols))

/-- The shared shape of `build_dim_demographics` / `build_dim_region` /
`build_dim_risk` (`etl_to_dw.py` lines 184–243): keep the declared columns
present in the source (raising `ValueError` when none is, which is exactly
`build_dim_region`'s membership test when the grouping is the single column
`"region"`), `drop_duplicates()` on the selection, and insert the surrogate
key column 1..N at position 0. -/
def build_dim (declared : List String) (key : String) (df : DataFrame) :
    Except ETLError DataFrame :=
  let cols := presentCols declared df
  if cols.isEmpty then .error (.schemaError ("No columns found for " ++ key))
  else
    let sel := df.rows.map (fun r => fun c => if c ∈ cols then r c else Value.null)
    let dedup := dropDupBy (fun r => cols.map r) sel
    .ok ⟨key :: cols,
         dedup.enum.map (fun p => fun c => if c = key then .int (p.1 + 1) else p.2 c)⟩

/-- Column grouping of `dim_demographics`. -/
def demoDeclared : List String := ["age_group", "sex", "children"]

/-- Column grouping of `dim_risk`. -/
def riskDeclared : List String := ["smoker", "smoker_flag", "bmi_category"]

/-- `build_dim_demographics` (`etl_to_dw.py` lines 184–205). -/
def build_dim_demographics (df : DataFrame) : Except ETLError DataFrame :=
  build_dim demoDeclared "demographics_key" df

/-- `build_dim_region` (`etl_to_dw.py` lines 208–220). -/
def build_dim_region (df : DataFrame) : Except ETLError DataFrame :=
  build_dim ["region"] "region_key" df

/-- `build_dim_risk` (`etl_to_dw.py` lines 223–243). -/
def build_dim_risk (df : DataFrame) : Except ETLError DataFrame :=
  build_dim riskDeclared "risk_key" df

/-- pandas `left.merge(right, on=on, how="left")` in the collision-free case
(no shared column outside `on`, so the `_x`/`_y` suffix machinery never
fires — the theorems' hypotheses keep the inputs in that case): every left
row is kept; it is repeated once per key-matching right row, extended with
the right row's non-key columns, or padded with nulls when no right row
matches. -/
def merge (left right : DataFrame) (onCols : List String) : DataFrame :=
  ⟨left.cols ++ right.cols.filter (fun c => decide (c ∉ onCols)),
   left.rows.flatMap (fun l =>
     let ms := right.rows.filter (fun r => decide (onCols.map r = onCols.map l))
     if ms.isEmpty then
       [fun c => if c ∈ left.cols then l c else Value.null]
     else
       ms.map (fun r => fun c => if c ∈ left.cols then l c else r c))⟩

/-- Does the named column of `df` contain a null (pandas
`df[c].isna().any()`)? -/
def hasNull (df : DataFrame) (c : String) : Bool :=
  df.rows.any (fun r => decide (r c = Value.null))

/-- The sqlite columns of `fact_insurance_charges` declared NOT NULL in
`create_schema` (`etl_to_dw.py` lines 114–130), in the order the fact
projection selects them. -/
def factNotNullCols : List String :=
  ["demographics_key", "region_key", "risk_key", "charges"]

/-- Optional numeric context columns of the fact projection. -/
def optionalFeatures : List String := ["age", "bmi", "children"]

/-- `build_and_insert_fact` (`etl_to_dw.py` lines 267–356): left-join the
analytic frame to each dimension on the grouping columns present on both
sides (the region join only when `"region"` is available on both), print a
data-quality warning per unresolved key column, project the fact columns, and
insert the rows.  The returned pair is (warnings printed, insertion outcome):
sqlite rejects a null in any NOT NULL column (`demographics_key`,
`region_key`, `risk_key`, `charges` — a NaN key binds as NULL), which
surfaces as an `IntegrityError`; a missing selected column surfaces as a
pandas `KeyError`. -/
def build_and_insert_fact (analytic demo region risk : DataFrame) :
    List String × Except ETLError (List (List Value)) :=
  let demoKeys := demoDeclared.filter
    (fun c => decide (c ∈ analytic.cols) && decide (c ∈ demo.cols))
  if demoKeys.isEmpty then ([], .error (.mergeError "no demographics join keys")) else
  let fact1 := merge analytic demo demoKeys
  let fact2 :=
    if ("region" ∈ fact1.cols) ∧ ("region" ∈ region.cols) then merge fact1 region ["region"]
    else fact1
  let riskKeys := riskDeclared.filter
    (fun c => decide (c ∈ fact2.cols) && decide (c ∈ risk.cols))
  if riskKeys.isEmpty then ([], .error (.mergeError "no risk join keys")) else
  let fact3 := merge fact2 risk riskKeys
  if "demographics_key" ∉ fact3.cols then ([], .error (.keyError "demographics_key")) else
  let w1 := if hasNull fact3 "demographics_key" then
    ["Warning: some rows have no matching demographics_key."] else []
  let w2 := if ("region_key" ∈ fact3.cols) ∧ hasNull fact3 "region_key" then
    ["Warning: some rows have no matching region_key."] else []
  if "risk_key" ∉ fact3.cols then (w1 ++ w2, .error (.keyError "risk_key")) else
  let w3 := if hasNull fact3 "risk_key" then
    ["Warning: some rows have no matching risk_key."] else []
  let ws := w1 ++ w2 ++ w3
  if ("region_key" ∉ fact3.cols) ∨ ("charges" ∉ fact3.cols) then
    (ws, .error (.keyError "fact column selection")) else
  let factCols := factNotNullCols ++
    optionalFeatures.filter (fun c => decide (c ∈ fact3.cols))
  if fact3.rows.all (fun r => factNotNullCols.all (fun c => decide (r c ≠ Value.null))) then
    (ws, .ok (fact3.rows.map (fun r => factCols.map r)))
  else
    (ws, .error (.integrityError "NOT NULL constraint failed: fact_insurance_charges"))

/-- The persisted rows of the four warehouse tables (schema fixed by
`create_schema`; `fact_key` is the implicit sqlite rowid, restarting at 1
after a full DELETE, so it is left implicit). -/
structure DWState where
  dim_demographics : List (List Value)
  dim_region : List (List Value)
  dim_risk : List (List Value)
  fact_insurance_charges : List (List Value)
deriving DecidableEq

/-- `insert_dim_table` (`etl_to_dw.py` lines 251–264): the row batch a
dimension frame contributes, in column order. -/
def insert_dim_table (df : DataFrame) : List (List Value) :=
  df.rows.map (fun r => df.cols.map r)

/-- The pure pipeline inside `load_data_to_db`: build the three dimension
frames from the analytic frame (any `ValueError` aborts), then build the fact
rows; returns the four row batches inserted into the cleared tables. -/
def etl_build (analytic : DataFrame) :
    Except ETLError (List (List Value) × List (List Value) × List (List Value) × List (List Value)) := do
  let demo ← build_dim_demographics analytic
  let region ← build_dim_region analytic
  let risk ← build_dim_risk analytic
  match (build_and_insert_fact analytic demo region risk).2 with
  | .ok factRows =>
      .ok (insert_dim_table demo, insert_dim_table region, insert_dim_table risk, factRows)
  | .error e => .error e

/-- `load_data_to_db` (`etl_to_dw.py` lines 364–413) as a transition on the
warehouse state, with `analytic` standing for the loaded prepared CSV:
`create_schema` (IF NOT EXISTS — no row effect), `delete_existing_records`
(fact first, then the dimensions), builds, inserts, commit.  All row changes
happen inside one implicit sqlite transaction that is only committed on
success; on any exception the connection is closed without commit, rolling
the deletes and inserts back, so the caller-visible state is unchanged. -/
def load_data_to_db (analytic : DataFrame) (s : DWState) : DWState × Option ETLError :=
  match etl_build analytic with
  | .ok batch => (⟨batch.1, batch.2.1, batch.2.2.1, batch.2.2.2⟩, none)
  | .error e => (s, some e)

/-- Frame/aliasing model of `generate_column_names`: the function receives the
caller's `dimensions` list object, takes a `.copy()` of it, and `append`s only
to that copy; the returned pair is (result, the caller's list after the
call). -/
def generate_column_names_run (dimensions : List String)
    (metrics : List (String × MetricSpec)) : List String × List String :=
  let column_names := dimensions
  let column_names := column_names ++
    (flattenMetrics metrics).map (fun p => p.1 ++ "_" ++ aggName p.2)
  let column_names := column_names.map cleanName
  (column_names, dimensions)

/-- Frame/aliasing model of `create_olap_cube`: the pandas operations the body
uses (`groupby`, `agg`, `reset_index`) each return a fresh frame, the
`cube.columns = ...` assignment mutates that fresh frame only, and
`generate_column_names` mutates only its local copy of the dimensions list,
so the caller's `data_df`, `dimensions` and `metrics` objects after the call
are returned alongside the result. -/
def create_olap_cube_run (data_df : DataFrame) (dimensions : List String)
    (metrics : List (String × MetricSpec)) :
    Except CubeError Cube × (DataFrame × List String × List (String × MetricSpec)) :=
  (create_olap_cube data_df dimensions metrics,
   (data_df, (generate_column_names_run dimensions metrics).2, metrics))

/-- The raw (pre-cleanup) output column names: the dimensions followed by one
`"{measure}_{function}"` name per flattened (measure, function) pair. -/
def rawColumnNames (dimensions : List String) (metrics : List (String × MetricSpec)) :
    List String :=
  dimensions ++ (flattenMetrics metrics).map (fun p => p.1 ++ "_" ++ aggName p.2)

theorem generate_column_names_eq_clean (dimensions : List String)
    (metrics : List (String × MetricSpec)) :
    generate_column_names dimensions metrics = (rawColumnNames dimensions metrics).map cleanName :=
  rfl

-- quick sanity checks (spec §8 scenario shapes)
example :
    generate_column_names ["region"] [("charges", .many [.sum, .mean])] =
      ["region", "charges_sum", "charges_mean"] := by decide

example :
    (create_olap_cube
        ⟨["region", "charges"],
         [rowOf [("region", .str "east"), ("charges", .num 100)],
          rowOf [("region", .str "east"), ("charges", .num 300)],
          rowOf [("region", .str "west"), ("charges", .num 50)]]⟩
        ["region"] [("charges", .one .count)]) =
      .ok ⟨["region", "charges_count"],
           [[.str "east", .int 2], [.str "west", .int 1]]⟩ := by rfl

/-- C3 counterexample: on an empty input table the aggregator returns the
*column-less* empty frame `pd.DataFrame()`, not an empty table carrying the
declared schema `["region", "charges_sum"]`. -/
theorem c3_counterexample :
    create_olap_cube ⟨["region", "charges"], []⟩ ["region"] [("charges", .one .sum)] =
        .ok ⟨[], []⟩ ∧
      generate_column_names ["region"] [("charges", .one .sum)] = ["region", "charges_sum"] ∧
      ([] : List String) ≠ ["region", "charges_sum"] :=
  ⟨rfl, by decide, by decide⟩

/-- C3 (amended): for every dimensions list and measures mapping, if the input
table has zero rows then cube aggregation raises no error and returns the
empty cube table with *no* columns at all (the declared output schema is not
attached). -/
theorem c3_empty_input (df : DataFrame) (dimensions : List String)
    (metrics : List (String × MetricSpec)) (h : df.rows.isEmpty = true) :
    create_olap_cube df dimensions metrics = .ok ⟨[], []⟩ := by
  unfold create_olap_cube
  simp [h]

/-- C3 witness: the amended theorem applied to a concrete empty table. -/
theorem c3_witness :
    (⟨["region", "charges"], []⟩ : DataFrame).rows.isEmpty = true ∧
      create_olap_cube ⟨["region", "charges"], []⟩ ["region"] [("charges", .many [.sum, .mean])] =
        .ok ⟨[], []⟩ :=
  ⟨rfl, c3_empty_input _ _ _ rfl⟩

/-- C10: the aggregator does not mutate its inputs — the caller's frame,
dimensions list and metrics mapping are unchanged after the call, and
`generate_column_names` appends only to its copy of the dimensions list. -/
theorem c10_no_input_mutation (data_df : DataFrame) (dimensions : List String)
    (metrics : List (String × MetricSpec)) :
    (create_olap_cube_run data_df dimensions metrics).2 = (data_df, dimensions, metrics) ∧
      (generate_column_names_run dimensions metrics).2 = dimensions :=
  ⟨rfl, rfl⟩

/-- C9 counterexample: on an *empty* input table the aggregator returns the
empty cube before any column validation, so a dimensions list naming a column
absent from the table does not fail. -/
theorem c9_counterexample :
    create_olap_cube ⟨["region"], []⟩ ["nonexistent"] [("region", .one .count)] =
        .ok ⟨[], []⟩ ∧
      ("nonexistent" ∉ ["region"]) :=
  ⟨rfl, by decide⟩

/-- C9 (amended): for every *non-empty* input table with a non-empty
dimensions list, naming a column absent from the table in the dimensions or
measures fails with `DimensionNotFoundError` carrying a non-empty list of
missing names, each of which is absent from the table or is a grouping column
(unavailable for aggregation after `groupby`); when a dimension is missing
the error names exactly the missing dimensions. -/
theorem c9_missing_column (df : DataFrame) (dimensions : List String)
    (metrics : List (String × MetricSpec))
    (hne : df.rows.isEmpty = false) (hdims : dimensions.isEmpty = false)
    (hmiss : (∃ d ∈ dimensions, d ∉ df.cols) ∨ (∃ p ∈ metrics, p.1 ∉ df.cols)) :
    ∃ missing, create_olap_cube df dimensions metrics =
        .error (.dimensionNotFound missing) ∧
      missing ≠ [] ∧
      (∀ c ∈ missing, c ∉ df.cols ∨ c ∈ dimensions) ∧
      (dimensions.filter (fun d => decide (d ∉ df.cols)) ≠ [] →
        missing = dimensions.filter (fun d => decide (d ∉ df.cols))) := by
  unfold create_olap_cube
  simp only [hne, hdims, Bool.false_eq_true, if_false]
  by_cases hmd : (dimensions.filter (fun d => decide (d ∉ df.cols))).isEmpty
  · have hmdnil : dimensions.filter (fun d => decide (d ∉ df.cols)) = [] :=
      List.isEmpty_iff.mp hmd
    have hmeas : ∃ p ∈ metrics, p.1 ∉ df.cols := by
      rcases hmiss with ⟨d, hd, hdc⟩ | h
      · exfalso
        have : d ∈ dimensions.filter (fun d => decide (d ∉ df.cols)) := by
          simp [List.mem_filter, hd, hdc]
        rw [hmdnil] at this; exact absurd this (List.not_mem_nil d)
      · exact h
    rcases hmeas with ⟨p, hp, hpc⟩
    have hmm : p.1 ∈ (metrics.map (fun p => p.1)).filter
        (fun m => decide (m ∉ df.cols.filter (fun c => decide (c ∉ dimensions)))) := by
      simp only [List.mem_filter, List.mem_map, decide_eq_true_eq]
      refine ⟨⟨p, hp, rfl⟩, ?_⟩
      intro hin
      exact hpc hin.1
    have hne2 : ¬ ((metrics.map (fun p => p.1)).filter
        (fun m => decide (m ∉ df.cols.filter (fun c => decide (c ∉ dimensions))))).isEmpty := by
      intro h
      rw [List.isEmpty_iff.mp h] at hmm
      exact absurd hmm (List.not_mem_nil _)
    simp only [hmd, if_true, hne2, if_false, not_true, not_false_iff, ite_true, ite_false]
    refine ⟨_, rfl, ?_, ?_, ?_⟩
    · intro h
      rw [h] at hmm; exact absurd hmm (List.not_mem_nil _)
    · intro c hc
      simp only [List.mem_filter, decide_eq_true_eq, List.mem_filter] at hc
      rcases hc with ⟨_, hcavail⟩
      by_cases hccols : c ∈ df.cols
      · right
        by_contra hcd
        exact hcavail (by simp [List.mem_filter, hccols, hcd])
      · exact Or.inl hccols
    · intro h
      exact absurd (List.isEmpty_iff.mp hmd) h
  · simp only [hmd, not_false_iff, if_true, ite_false, ite_true]
    refine ⟨_, rfl, ?_, ?_, fun _ => rfl⟩
    · intro h
      exact hmd (by rw [h]; rfl)
    · intro c hc
      simp only [List.mem_filter, decide_eq_true_eq] at hc
      exact Or.inl hc.2

/-- C9 witness: a non-empty one-column table with an unknown dimension name
aborts with `DimensionNotFoundError`. -/
theorem c9_witness :
    ∃ missing,
      create_olap_cube ⟨["region"], [rowOf [("region", Value.str "east")]]⟩
          ["nope"] [("region", .one .count)] = .error (.dimensionNotFound missing) := by
  obtain ⟨missing, h, -, -, -⟩ :=
    c9_missing_column ⟨["region"], [rowOf [("region", Value.str "east")]]⟩ ["nope"]
      [("region", .one .count)] rfl rfl (Or.inl ⟨"nope", by decide, by decide⟩)
  exact ⟨missing, h⟩

/-- C2 counterexample: the cleanup pass of `generate_column_names` rewrites a
dimension column whose name contains `"__"`, so the output columns are not
the dimension names unchanged: grouping the one-row table by `"a__b"` yields
first output column `"a_b"`. -/
theorem c2_counterexample :
    create_olap_cube ⟨["a__b", "m"], [rowOf [("a__b", Value.str "x"), ("m", Value.int 5)]]⟩
        ["a__b"] [("m", .one .count)] =
      .ok ⟨["a_b", "m_count"], [[Value.str "x", Value.int 1]]⟩ ∧
      ("a_b" : String) ≠ "a__b" :=
  ⟨rfl, by decide⟩

/-- C2 (amended): for every *non-empty* accepted input, the output cube's
columns are the dimension names followed by one `"{measure}_{function}"` name
per flattened (measure, function) pair — a scalar-declared function yielding
exactly one such column, never a bare measure name — all passed through the
cleanup `replace("__", "_").rstrip("_")`; whenever no name contains `"__"` or
ends in `"_"` (so the cleanup is the identity, as for
`["region", "charges_sum", "charges_mean"]`), they are exactly the claimed
names. -/
theorem c2_column_naming (df : DataFrame) (dimensions : List String)
    (metrics : List (String × MetricSpec))
    (hne : df.rows.isEmpty = false) (hdims : dimensions.isEmpty = false)
    (hd : ∀ d ∈ dimensions, d ∈ df.cols)
    (hm : ∀ p ∈ metrics, p.1 ∈ df.cols ∧ p.1 ∉ dimensions) :
    ∃ c, create_olap_cube df dimensions metrics = .ok c ∧
      c.cols = (rawColumnNames dimensions metrics).map cleanName ∧
      ((∀ s ∈ rawColumnNames dimensions metrics, cleanName s = s) →
        c.cols = rawColumnNames dimensions metrics) := by
  have hmd : (dimensions.filter (fun d => decide (d ∉ df.cols))).isEmpty = true := by
    rw [List.isEmpty_iff]
    apply List.filter_eq_nil_iff.mpr
    intro d hdm
    simp only [decide_eq_true_eq, not_not]
    exact hd d hdm
  have hmm : ((metrics.map (fun p => p.1)).filter
      (fun m => decide (m ∉ df.cols.filter (fun c => decide (c ∉ dimensions))))).isEmpty = true := by
    rw [List.isEmpty_iff]
    apply List.filter_eq_nil_iff.mpr
    intro m hmem
    simp only [decide_eq_true_eq, not_not, List.mem_filter, decide_eq_true_eq]
    obtain ⟨p, hp, hpe⟩ := List.mem_map.mp hmem
    subst hpe
    exact ⟨(hm p hp).1, (hm p hp).2⟩
  have hcr : ∃ rs, create_olap_cube df dimensions metrics =
      .ok ⟨generate_column_names dimensions metrics, rs⟩ := by
    unfold create_olap_cube
    simp only [hne, hmd, hmm, hdims, Bool.false_eq_true, if_false, not_true,
      not_false_iff, ite_true, ite_false]
    exact ⟨_, rfl⟩
  obtain ⟨rs, hcr⟩ := hcr
  refine ⟨_, hcr, rfl, ?_⟩
  · intro hid
    rw [generate_column_names_eq_clean]
    calc (rawColumnNames dimensions metrics).map cleanName
        = (rawColumnNames dimensions metrics).map id := List.map_congr_left hid
      _ = rawColumnNames dimensions metrics := List.map_id _

/-- C2 witness: the naming-determinism instance of the claim — grouping a
non-empty table by `region` with `charges: [sum, mean]` yields columns
exactly `["region", "charges_sum", "charges_mean"]`. -/
theorem c2_witness :
    ∃ c, create_olap_cube
        ⟨["region", "charges"], [rowOf [("region", Value.str "east"), ("charges", Value.num 100)]]⟩
        ["region"] [("charges", .many [.sum, .mean])] = .ok c ∧
      c.cols = ["region", "charges_sum", "charges_mean"] := by
  obtain ⟨c, h1, -, h3⟩ := c2_column_naming
    ⟨["region", "charges"], [rowOf [("region", Value.str "east"), ("charges", Value.num 100)]]⟩
    ["region"] [("charges", .many [.sum, .mean])] rfl rfl (by decide) (by decide)
  refine ⟨c, h1, ?_⟩
  rw [h3 (by decide)]
  rfl

theorem mem_of_mem_dropDupByAux {ρ κ : Type} [DecidableEq κ] (f : ρ → κ)
    (seen : List κ) (l : List ρ) (r : ρ) (h : r ∈ dropDupByAux f seen l) : r ∈ l := by
  induction l generalizing seen with
  | nil => exact absurd h (List.not_mem_nil r)
  | cons a l ih =>
      simp only [dropDupByAux] at h
      by_cases hs : f a ∈ seen
      · rw [if_pos hs] at h
        exact List.mem_cons_of_mem a (ih _ h)
      · rw [if_neg hs] at h
        rcases List.mem_cons.mp h with h | h
        · exact h ▸ List.mem_cons_self a l
        · exact List.mem_cons_of_mem a (ih _ h)

theorem map_dropDupByAux {ρ κ : Type} [DecidableEq κ] (f : ρ → κ)
    (seen : List κ) (l : List ρ) :
    (dropDupByAux f seen l).map f = firstSeenAux seen (l.map f) := by
  induction l generalizing seen with
  | nil => rfl
  | cons a l ih =>
      simp only [dropDupByAux, List.map_cons, firstSeenAux]
      by_cases hs : f a ∈ seen
      · rw [if_pos hs, if_pos hs, ih]
      · rw [if_neg hs, if_neg hs, List.map_cons, ih]

theorem map_dropDupBy {ρ κ : Type} [DecidableEq κ] (f : ρ → κ) (l : List ρ) :
    (dropDupBy f l).map f = firstSeen (l.map f) :=
  map_dropDupByAux f [] l

theorem mem_firstSeenAux {κ : Type} [DecidableEq κ] (seen l : List κ) (x : κ) :
    x ∈ firstSeenAux seen l ↔ x ∈ l ∧ x ∉ seen := by
  induction l generalizing seen with
  | nil => simp [firstSeenAux]
  | cons k ks ih =>
      simp only [firstSeenAux]
      by_cases hs : k ∈ seen
      · rw [if_pos hs, ih]
        constructor
        · rintro ⟨hx, hxs⟩
          exact ⟨List.mem_cons_of_mem k hx, hxs⟩
        · rintro ⟨hx, hxs⟩
          rcases List.mem_cons.mp hx with rfl | hx
          · exact absurd hs hxs
          · exact ⟨hx, hxs⟩
      · rw [if_neg hs]
        constructor
        · intro hx
          rcases List.mem_cons.mp hx with rfl | hx
          · exact ⟨List.mem_cons_self x ks, hs⟩
          · obtain ⟨h1, h2⟩ := (ih _).mp hx
            refine ⟨List.mem_cons_of_mem k h1, fun hc => h2 (List.mem_cons_of_mem k hc)⟩
        · rintro ⟨hx, hxs⟩
          rcases List.mem_cons.mp hx with rfl | hx
          · exact List.mem_cons_self x _
          · by_cases hxk : x = k
            · exact hxk ▸ List.mem_cons_self k _
            · exact List.mem_cons_of_mem k ((ih _).mpr
                ⟨hx, fun hc => (List.mem_cons.mp hc).elim hxk hxs⟩)

theorem nodup_firstSeenAux {κ : Type} [DecidableEq κ] (seen l : List κ) :
    (firstSeenAux seen l).Nodup := by
  induction l generalizing seen with
  | nil => exact List.nodup_nil
  | cons k ks ih =>
      simp only [firstSeenAux]
      by_cases hs : k ∈ seen
      · rw [if_pos hs]; exact ih _
      · rw [if_neg hs]
        refine List.nodup_cons.mpr ⟨?_, ih _⟩
        intro hc
        exact ((mem_firstSeenAux _ _ _).mp hc).2 (List.mem_cons_self k seen)

theorem mem_firstSeen {κ : Type} [DecidableEq κ] (l : List κ) (x : κ) :
    x ∈ firstSeen l ↔ x ∈ l := by
  rw [firstSeen, mem_firstSeenAux]
  simp

theorem nodup_firstSeen {κ : Type} [DecidableEq κ] (l : List κ) :
    (firstSeen l).Nodup :=
  nodup_firstSeenAux [] l

theorem length_filter_key_eq_one {ρ κ : Type} [DecidableEq κ] (f : ρ → κ)
    (l : List ρ) (k : κ) (hnd : (l.map f).Nodup) (hk : k ∈ l.map f) :
    (l.filter (fun y => decide (f y = k))).length = 1 := by
  induction l with
  | nil => exact absurd hk (List.not_mem_nil k)
  | cons a l ih =>
      rw [List.map_cons, List.nodup_cons] at hnd
      rcases List.mem_cons.mp hk with rfl | hk2
      · rw [List.filter_cons_of_pos (by simp)]
        have : l.filter (fun y => decide (f y = f a)) = [] := by
          apply List.filter_eq_nil_iff.mpr
          intro b hb
          simp only [decide_eq_true_eq]
          intro hfb
          exact hnd.1 (hfb ▸ List.mem_map_of_mem f hb)
        rw [this]
        rfl
      · have hka : f a ≠ k := fun h => hnd.1 (h ▸ hk2)
        rw [List.filter_cons_of_neg (by simpa using hka)]
        exact ih hnd.2 hk2

theorem length_filter_eq_one_of_nodup {κ : Type} [DecidableEq κ] (l : List κ) (k : κ)
    (hnd : l.Nodup) (hk : k ∈ l) : (l.filter (fun y => decide (y = k))).length = 1 := by
  have h := length_filter_key_eq_one (fun x => x) l k (by simpa using hnd) (by simpa using hk)
  simpa using h

/-- C4: a dimension build with at least one declared column present selects
the present declared columns, deduplicates rows first-seen preserving order,
and assigns surrogate keys 1..N in that order; every attribute tuple of the
source appears in the dimension table exactly once. -/
theorem c4_dimension_build (declared : List String) (key : String) (df : DataFrame)
    (hk : key ∉ declared) (hp : (presentCols declared df).isEmpty = false) :
    ∃ d, build_dim declared key df = .ok d ∧
      d.cols = key :: presentCols declared df ∧
      d.rows.map (fun r => (presentCols declared df).map r) =
        firstSeen (df.rows.map (fun r => (presentCols declared df).map r)) ∧
      d.rows.map (fun r => r key) =
        (List.range d.rows.length).map (fun i : Nat => Value.int (i + 1)) ∧
      (d.rows.map (fun r => (presentCols declared df).map r)).Nodup ∧
      (∀ t ∈ df.rows.map (fun r => (presentCols declared df).map r),
        ((d.rows.map (fun r => (presentCols declared df).map r)).filter
          (fun u => decide (u = t))).length = 1) := by
  have hknotin : ∀ c ∈ presentCols declared df, ¬ (c = key) := by
    intro c hc hck
    exact hk (hck ▸ (List.mem_filter.mp hc).1)
  have hbd : build_dim declared key df =
      .ok ⟨key :: presentCols declared df,
        (dropDupBy (fun r => (presentCols declared df).map r)
            (df.rows.map (fun r => fun c =>
              if c ∈ presentCols declared df then r c else Value.null))).enum.map
          (fun p => fun c => if c = key then .int (p.1 + 1) else p.2 c)⟩ := by
    unfold build_dim
    rw [if_neg (by rw [hp]; exact Bool.false_ne_true)]
  have hproj :
      ((dropDupBy (fun r => (presentCols declared df).map r)
          (df.rows.map (fun r => fun c =>
            if c ∈ presentCols declared df then r c else Value.null))).enum.map
        (fun p => fun c => if c = key then Value.int (p.1 + 1) else p.2 c)).map
          (fun r => (presentCols declared df).map r) =
      firstSeen (df.rows.map (fun r => (presentCols declared df).map r)) := by
    rw [List.map_map]
    have h1 : ((dropDupBy (fun r => (presentCols declared df).map r)
        (df.rows.map (fun r => fun c =>
          if c ∈ presentCols declared df then r c else Value.null))).enum.map
        ((fun r => (presentCols declared df).map r) ∘
          (fun p => fun c => if c = key then Value.int (p.1 + 1) else p.2 c))) =
        ((dropDupBy (fun r => (presentCols declared df).map r)
        (df.rows.map (fun r => fun c =>
          if c ∈ presentCols declared df then r c else Value.null))).enum.map
          (fun p => (presentCols declared df).map p.2)) := by
      apply List.map_congr_left
      intro p _
      apply List.map_congr_left
      intro c hc
      simp only [if_neg (hknotin c hc)]
    rw [h1]
    have h2 : (fun p : Nat × (String → Value) => (presentCols declared df).map p.2) =
        (fun r : String → Value => (presentCols declared df).map r) ∘ Prod.snd := rfl
    rw [h2, ← List.map_map, List.enum_map_snd, map_dropDupBy, List.map_map]
    have h3 : (df.rows.map ((fun r => (presentCols declared df).map r) ∘
        (fun r => fun c => if c ∈ presentCols declared df then r c else Value.null))) =
        df.rows.map (fun r => (presentCols declared df).map r) := by
      apply List.map_congr_left
      intro r _
      apply List.map_congr_left
      intro c hc
      simp only [Function.comp]
      rw [if_pos hc]
    rw [h3]
  have hkeys :
      ((dropDupBy (fun r => (presentCols declared df).map r)
          (df.rows.map (fun r => fun c =>
            if c ∈ presentCols declared df then r c else Value.null))).enum.map
        (fun p => fun c => if c = key then Value.int (p.1 + 1) else p.2 c)).map
          (fun r => r key) =
      (List.range ((dropDupBy (fun r => (presentCols declared df).map r)
          (df.rows.map (fun r => fun c =>
            if c ∈ presentCols declared df then r c else Value.null))).enum.map
        (fun p => fun c => if c = key then Value.int (p.1 + 1) else p.2 c)).length).map
        (fun i : Nat => Value.int (i + 1)) := by
    rw [List.map_map, List.length_map, List.enum_length]
    have h1 : ((fun r : String → Value => r key) ∘
        (fun p : Nat × (String → Value) =>
          fun c => if c = key then Value.int (p.1 + 1) else p.2 c)) =
        ((fun i : Nat => Value.int (i + 1)) ∘ Prod.fst) := by
      funext p
      simp [Function.comp]
    rw [h1, ← List.map_map, List.enum_map_fst]
  refine ⟨_, hbd, rfl, hproj, hkeys, ?_, ?_⟩
  · rw [hproj]
    exact nodup_firstSeen _
  · intro t ht
    rw [hproj]
    exact length_filter_eq_one_of_nodup _ _ (nodup_firstSeen _) ((mem_firstSeen _ _).mpr ht)

/-- Concrete source frame exercising the dimension build (row 3 duplicates
row 1's demographic tuple). -/
def c4df : DataFrame :=
  ⟨["age_group", "sex", "children", "region"],
   [rowOf [("age_group", .str "young"), ("sex", .str "m"), ("children", .int 0),
           ("region", .str "east")],
    rowOf [("age_group", .str "adult"), ("sex", .str "f"), ("children", .int 2),
           ("region", .str "west")],
    rowOf [("age_group", .str "young"), ("sex", .str "m"), ("children", .int 0),
           ("region", .str "west")]]⟩

/-- C4 witness: the dimension-build theorem applied to `c4df` and the
demographics grouping. -/
theorem c4_witness :
    ("demographics_key" ∉ demoDeclared) ∧
      (presentCols demoDeclared c4df).isEmpty = false ∧
      ∃ d, build_dim demoDeclared "demographics_key" c4df = .ok d ∧
        d.cols = "demographics_key" :: presentCols demoDeclared c4df ∧
        d.rows.map (fun r => r "demographics_key") =
          (List.range d.rows.length).map (fun i : Nat => Value.int (i + 1)) := by
  refine ⟨by decide, by decide, ?_⟩
  obtain ⟨d, h1, h2, -, h4, -, -⟩ :=
    c4_dimension_build demoDeclared "demographics_key" c4df (by decide) (by decide)
  exact ⟨d, h1, h2, h4⟩

theorem sum_map_add {κ : Type} (keys : List κ) (f g : κ → Nat) :
    (keys.map (fun k => f k + g k)).sum = (keys.map f).sum + (keys.map g).sum := by
  induction keys with
  | nil => rfl
  | cons k ks ih =>
      simp only [List.map_cons, List.sum_cons, ih]
      omega

theorem sum_indicator_one {κ : Type} [DecidableEq κ] (keys : List κ) (x : κ)
    (hnd : keys.Nodup) (hx : x ∈ keys) :
    (keys.map (fun k => if x = k then (1 : Nat) else 0)).sum = 1 := by
  induction keys with
  | nil => exact absurd hx (List.not_mem_nil x)
  | cons k ks ih =>
      rw [List.nodup_cons] at hnd
      rcases List.mem_cons.mp hx with rfl | hx2
      · simp only [List.map_cons, List.sum_cons, if_pos rfl]
        have hz : (ks.map (fun k2 => if x = k2 then (1 : Nat) else 0)).sum = 0 := by
          apply List.sum_eq_zero
          intro y hy
          obtain ⟨k2, hk2, rfl⟩ := List.mem_map.mp hy
          rw [if_neg]
          intro h
          exact hnd.1 (h ▸ hk2)
        rw [hz]
        simp
      · have hxk : ¬ (x = k) := by
          intro h
          exact hnd.1 (h ▸ hx2)
        simp only [List.map_cons, List.sum_cons, if_neg hxk, Nat.zero_add]
        exact ih hnd.2 hx2

theorem sum_counts_partition {ρ κ : Type} [DecidableEq κ] (keys : List κ) (t : ρ → κ)
    (p : ρ → Bool) (l : List ρ) (hnd : keys.Nodup) (hcov : ∀ r ∈ l, t r ∈ keys) :
    (keys.map (fun k => ((l.filter (fun r => decide (t r = k))).filter p).length)).sum =
      (l.filter p).length := by
  induction l with
  | nil =>
      simp only [List.filter_nil, List.length_nil]
      exact List.sum_eq_zero (by
        intro y hy
        obtain ⟨k, _, rfl⟩ := List.mem_map.mp hy
        rfl)
  | cons a l ih =>
      have hcov' : ∀ r ∈ l, t r ∈ keys := fun r hr => hcov r (List.mem_cons_of_mem a hr)
      have hsplit : ∀ k, (((a :: l).filter (fun r => decide (t r = k))).filter p).length =
          ((l.filter (fun r => decide (t r = k))).filter p).length +
            (if decide (t a = k) && p a then 1 else 0) := by
        intro k
        by_cases hta : t a = k
        · rw [List.filter_cons_of_pos (by simpa using hta)]
          by_cases hpa : p a = true
          · rw [List.filter_cons_of_pos hpa]
            simp [hta, hpa]
          · rw [List.filter_cons_of_neg hpa]
            simp [hta, Bool.eq_false_iff.mpr hpa]
        · rw [List.filter_cons_of_neg (by simpa using hta)]
          simp [hta]
      have hmapeq : keys.map (fun k => (((a :: l).filter (fun r => decide (t r = k))).filter p).length) =
          keys.map (fun k => ((l.filter (fun r => decide (t r = k))).filter p).length +
            (if decide (t a = k) && p a then 1 else 0)) :=
        List.map_congr_left (fun k _ => hsplit k)
      rw [hmapeq, sum_map_add, ih hcov']
      by_cases hpa : p a = true
      · have hind : keys.map (fun k => if decide (t a = k) && p a then (1 : Nat) else 0) =
            keys.map (fun k => if t a = k then (1 : Nat) else 0) := by
          apply List.map_congr_left
          intro k _
          simp [hpa]
        rw [hind, sum_indicator_one keys (t a) hnd (hcov a (List.mem_cons_self a l)),
          List.filter_cons_of_pos hpa]
        simp [Nat.add_comm]
      · have hind : keys.map (fun k => if decide (t a = k) && p a then (1 : Nat) else 0) =
            keys.map (fun _ => (0 : Nat)) := by
          apply List.map_congr_left
          intro k _
          simp [Bool.eq_false_iff.mpr hpa]
        rw [hind, List.filter_cons_of_neg hpa]
        simp

/-- The integer carried by an integer cell (0 otherwise); cube count columns
hold integer cells. -/
def valToInt : Value → Int
  | .int n => n
  | _ => 0

/-- Sum of the i-th column of a cube, reading integer cells. -/
def colIntSum (c : Cube) (i : Nat) : Int :=
  (c.rows.map (fun row => valToInt (row.getD i Value.null))).sum

theorem mem_keys_length {dims : List String} {vl : List (String → Value)}
    {k : List Value} (hk : k ∈ firstSeen (vl.map (fun r => dims.map r))) :
    k.length = dims.length := by
  obtain ⟨r, _, rfl⟩ := List.mem_map.mp ((mem_firstSeen _ _).mp hk)
  exact List.length_map dims r

theorem cube_rows_count_sum (dims : List String) (metrics : List (String × MetricSpec))
    (j : Nat) (m : String) (vl : List (String → Value))
    (hj : (flattenMetrics metrics)[j]? = some (m, AggFunc.count)) :
    ((firstSeen (vl.map (fun r => dims.map r))).map (fun k =>
        valToInt ((k ++ (flattenMetrics metrics).map (fun p => aggValue p.2
          ((vl.filter (fun r => decide (dims.map r = k))).map (fun r => r p.1)))).getD
            (dims.length + j) Value.null))).sum =
      ((vl.filter (fun r => decide (r m ≠ Value.null))).length : Int) := by
  have hpoint : ∀ k ∈ firstSeen (vl.map (fun r => dims.map r)),
      valToInt ((k ++ (flattenMetrics metrics).map (fun p => aggValue p.2
          ((vl.filter (fun r => decide (dims.map r = k))).map (fun r => r p.1)))).getD
            (dims.length + j) Value.null) =
      ((((vl.filter (fun r => decide (dims.map r = k))).filter
          (fun r => decide (r m ≠ Value.null))).length : Int)) := by
    intro k hk
    have hklen : k.length = dims.length := mem_keys_length hk
    rw [List.getD_eq_getElem?_getD, List.getElem?_append_right (by omega),
      hklen, Nat.add_sub_cancel_left, List.getElem?_map, hj]
    show ((((vl.filter (fun r => decide (dims.map r = k))).map (fun r => r m)).filter
        (fun v => decide (v ≠ Value.null))).length : Int) = _
    rw [List.filter_map, List.length_map]
    rfl
  rw [List.map_congr_left hpoint]
  have hcast : ((firstSeen (vl.map (fun r => dims.map r))).map (fun k =>
      ((((vl.filter (fun r => decide (dims.map r = k))).filter
          (fun r => decide (r m ≠ Value.null))).length : Int)))) =
      ((firstSeen (vl.map (fun r => dims.map r))).map (fun k =>
      (((vl.filter (fun r => decide (dims.map r = k))).filter
          (fun r => decide (r m ≠ Value.null))).length))).map (fun n : Nat => (n : Int)) := by
    rw [List.map_map]
    rfl
  rw [hcast, ← Nat.cast_list_sum]
  congr 1
  exact sum_counts_partition _ _ _ _ (nodup_firstSeen _)
    (fun r hr => (mem_firstSeen _ _).mpr (List.mem_map_of_mem _ hr))

/-- C6 (amended): on a non-empty accepted input whose j-th flattened
(measure, function) pair is (m, count): rows with a null in some dimension
column contribute to no cube row, every other row contributes to exactly one
cube row, and the sum of the count column equals the number of input rows
with no null in any dimension column *and a non-null value in the counted
measure column m* (pandas count counts non-null cells, not group sizes). -/
theorem c6_count_partition (df : DataFrame) (dimensions : List String)
    (metrics : List (String × MetricSpec)) (j : Nat) (m : String)
    (hne : df.rows.isEmpty = false) (hdims : dimensions.isEmpty = false)
    (hd : ∀ d ∈ dimensions, d ∈ df.cols)
    (hm : ∀ p ∈ metrics, p.1 ∈ df.cols ∧ p.1 ∉ dimensions)
    (hj : (flattenMetrics metrics)[j]? = some (m, AggFunc.count)) :
    ∃ c, create_olap_cube df dimensions metrics = .ok c ∧
      colIntSum c (dimensions.length + j) =
        (((validRows df dimensions).filter (fun r => decide (r m ≠ Value.null))).length : Int) ∧
      (∀ r ∈ df.rows, dimensions.all (fun d => decide (r d ≠ Value.null)) = false →
        (c.rows.filter (fun row =>
          decide (row.take dimensions.length = dimensions.map r))).length = 0) ∧
      (∀ r ∈ df.rows, dimensions.all (fun d => decide (r d ≠ Value.null)) = true →
        (c.rows.filter (fun row =>
          decide (row.take dimensions.length = dimensions.map r))).length = 1) := by
  have hmd : (dimensions.filter (fun d => decide (d ∉ df.cols))).isEmpty = true := by
    rw [List.isEmpty_iff]
    apply List.filter_eq_nil_iff.mpr
    intro d hdm
    simp only [decide_eq_true_eq, not_not]
    exact hd d hdm
  have hmm : ((metrics.map (fun p => p.1)).filter
      (fun m2 => decide (m2 ∉ df.cols.filter (fun c => decide (c ∉ dimensions))))).isEmpty = true := by
    rw [List.isEmpty_iff]
    apply List.filter_eq_nil_iff.mpr
    intro m2 hmem
    simp only [decide_eq_true_eq, not_not, List.mem_filter, decide_eq_true_eq]
    obtain ⟨p, hp, hpe⟩ := List.mem_map.mp hmem
    subst hpe
    exact ⟨(hm p hp).1, (hm p hp).2⟩
  have hcr : create_olap_cube df dimensions metrics =
      .ok ⟨generate_column_names dimensions metrics,
        (firstSeen ((validRows df dimensions).map (fun r => dimensions.map r))).map (fun k =>
          k ++ (flattenMetrics metrics).map (fun p => aggValue p.2
            (((validRows df dimensions).filter
              (fun r => decide (dimensions.map r = k))).map (fun r => r p.1))))⟩ := by
    unfold create_olap_cube
    simp only [hne, hmd, hmm, hdims, Bool.false_eq_true, if_false, not_true,
      not_false_iff, ite_true, ite_false]
  have htake : ∀ k ∈ firstSeen ((validRows df dimensions).map (fun r => dimensions.map r)),
      (k ++ (flattenMetrics metrics).map (fun p => aggValue p.2
        (((validRows df dimensions).filter
          (fun r => decide (dimensions.map r = k))).map (fun r => r p.1)))).take
        dimensions.length = k := by
    intro k hk
    rw [← mem_keys_length hk]
    exact List.take_left _ _
  have hfilt : ∀ K : List Value,
      (((firstSeen ((validRows df dimensions).map (fun r => dimensions.map r))).map (fun k =>
          k ++ (flattenMetrics metrics).map (fun p => aggValue p.2
            (((validRows df dimensions).filter
              (fun r => decide (dimensions.map r = k))).map (fun r => r p.1))))).filter
        (fun row => decide (row.take dimensions.length = K))).length =
      ((firstSeen ((validRows df dimensions).map (fun r => dimensions.map r))).filter
        (fun k => decide (k = K))).length := by
    intro K
    rw [List.filter_map, List.length_map]
    congr 1
    apply List.filter_congr
    intro k hk
    simp only [Function.comp]
    rw [htake k hk]
  refine ⟨_, hcr, ?_, ?_, ?_⟩
  · unfold colIntSum
    simp only []
    rw [List.map_map]
    exact cube_rows_count_sum dimensions metrics j m (validRows df dimensions) hj
  · intro r hr hall
    rw [hfilt (dimensions.map r)]
    rw [List.length_eq_zero]
    apply List.filter_eq_nil_iff.mpr
    intro k hk
    simp only [decide_eq_true_eq]
    intro hkK
    obtain ⟨r2, hr2, hk2⟩ := List.mem_map.mp ((mem_firstSeen _ _).mp hk)
    obtain ⟨d0, hd0, hd0f⟩ := List.all_eq_false.mp hall
    have hr2all : dimensions.all (fun d => decide (r2 d ≠ Value.null)) = true :=
      (List.mem_filter.mp hr2).2
    have : r2 d0 = r d0 := by
      have hmapr : dimensions.map r2 = dimensions.map r := by rw [hk2, hkK]
      exact List.map_inj_left.mp hmapr d0 hd0
    have hr2d0 : r2 d0 ≠ Value.null := by
      have := List.all_eq_true.mp hr2all d0 hd0
      simpa using this
    have hrd0 : r d0 = Value.null := by
      simpa using hd0f
    exact hr2d0 (this.trans hrd0)
  · intro r hr hall
    rw [hfilt (dimensions.map r)]
    have hrv : r ∈ validRows df dimensions := List.mem_filter.mpr ⟨hr, hall⟩
    exact length_filter_eq_one_of_nodup _ _ (nodup_firstSeen _)
      ((mem_firstSeen _ _).mpr (List.mem_map_of_mem _ hrv))

/-- C6 counterexample: with dimension g and counted measure m, a row whose
dimensions are non-null but whose m cell is null is not counted: the count
column sums to 1 while 2 input rows have no null in any dimension column. -/
theorem c6_counterexample :
    create_olap_cube
        ⟨["g", "m"], [rowOf [("g", Value.str "a")],
                      rowOf [("g", Value.str "a"), ("m", Value.int 1)]]⟩
        ["g"] [("m", .one .count)] =
      .ok ⟨["g", "m_count"], [[Value.str "a", Value.int 1]]⟩ ∧
      colIntSum ⟨["g", "m_count"], [[Value.str "a", Value.int 1]]⟩ 1 = 1 ∧
      ((⟨["g", "m"], [rowOf [("g", Value.str "a")],
                      rowOf [("g", Value.str "a"), ("m", Value.int 1)]]⟩ :
        DataFrame).rows.filter
          (fun r => (["g"] : List String).all (fun d => decide (r d ≠ Value.null)))).length = 2 ∧
      (1 : Int) ≠ 2 :=
  ⟨rfl, rfl, rfl, by decide⟩

/-- C6 witness: the amended partition theorem at a concrete two-row table. -/
theorem c6_witness :
    ∃ c, create_olap_cube
        ⟨["g", "m"], [rowOf [("g", Value.str "a"), ("m", Value.int 1)],
                      rowOf [("g", Value.str "b"), ("m", Value.int 2)]]⟩
        ["g"] [("m", .one .count)] = .ok c ∧
      colIntSum c (1 + 0) =
        (((validRows ⟨["g", "m"], [rowOf [("g", Value.str "a"), ("m", Value.int 1)],
            rowOf [("g", Value.str "b"), ("m", Value.int 2)]]⟩ ["g"]).filter
          (fun r => decide (r "m" ≠ Value.null))).length : Int) := by
  obtain ⟨c, h1, h2, -, -⟩ := c6_count_partition
    ⟨["g", "m"], [rowOf [("g", Value.str "a"), ("m", Value.int 1)],
                  rowOf [("g", Value.str "b"), ("m", Value.int 2)]]⟩
    ["g"] [("m", .one .count)] 0 "m" rfl rfl (by decide) (by decide) rfl
  exact ⟨c, h1, h2⟩

theorem build_dim_ok_props (declared : List String) (key : String) (df : DataFrame)
    (d : DataFrame) (hkd : key ∉ declared)
    (h : build_dim declared key df = .ok d) :
    d.cols = key :: presentCols declared df ∧
    (∀ s ∈ df.rows, ∃ r ∈ d.rows,
      (presentCols declared df).map r = (presentCols declared df).map s) ∧
    (∀ r ∈ d.rows, ∃ n : Nat, r key = .int (n + 1)) ∧
    (d.rows.map (fun r => r key)).Nodup ∧
    (d.rows.map (fun r => (presentCols declared df).map r)).Nodup := by
  have hknotin : ∀ c ∈ presentCols declared df, ¬ (c = key) := by
    intro c hc hck
    exact hkd (hck ▸ (List.mem_filter.mp hc).1)
  unfold build_dim at h
  by_cases hp : (presentCols declared df).isEmpty
  · rw [if_pos hp] at h
    exact absurd h (by intro hcon; cases hcon)
  · rw [if_neg hp] at h
    have hd : d = ⟨key :: presentCols declared df,
        (dropDupBy (fun r => (presentCols declared df).map r)
            (df.rows.map (fun r => fun c =>
              if c ∈ presentCols declared df then r c else Value.null))).enum.map
          (fun p => fun c => if c = key then .int (p.1 + 1) else p.2 c)⟩ :=
      (Except.ok.injEq _ _).mp h.symm
    subst hd
    -- projection of the built rows at the attribute columns
    have hproj :
        ((dropDupBy (fun r => (presentCols declared df).map r)
            (df.rows.map (fun r => fun c =>
              if c ∈ presentCols declared df then r c else Value.null))).enum.map
          (fun p => fun c => if c = key then Value.int (p.1 + 1) else p.2 c)).map
            (fun r => (presentCols declared df).map r) =
        firstSeen (df.rows.map (fun r => (presentCols declared df).map r)) := by
      rw [List.map_map]
      have h1 : ((dropDupBy (fun r => (presentCols declared df).map r)
          (df.rows.map (fun r => fun c =>
            if c ∈ presentCols declared df then r c else Value.null))).enum.map
          ((fun r => (presentCols declared df).map r) ∘
            (fun p => fun c => if c = key then Value.int (p.1 + 1) else p.2 c))) =
          ((dropDupBy (fun r => (presentCols declared df).map r)
          (df.rows.map (fun r => fun c =>
            if c ∈ presentCols declared df then r c else Value.null))).enum.map
            (fun p => (presentCols declared df).map p.2)) := by
        apply List.map_congr_left
        intro p _
        apply List.map_congr_left
        intro c hc
        simp only [if_neg (hknotin c hc)]
      rw [h1]
      have h2 : (fun p : Nat × (String → Value) => (presentCols declared df).map p.2) =
          (fun r : String → Value => (presentCols declared df).map r) ∘ Prod.snd := rfl
      rw [h2, ← List.map_map, List.enum_map_snd, map_dropDupBy, List.map_map]
      have h3 : (df.rows.map ((fun r => (presentCols declared df).map r) ∘
          (fun r => fun c => if c ∈ presentCols declared df then r c else Value.null))) =
          df.rows.map (fun r => (presentCols declared df).map r) := by
        apply List.map_congr_left
        intro r _
        apply List.map_congr_left
        intro c hc
        simp only [Function.comp]
        rw [if_pos hc]
      rw [h3]
    refine ⟨rfl, ?_, ?_, ?_, ?_⟩
    · -- totality: every source row's tuple appears among the built rows
      intro s hs
      have hst : (presentCols declared df).map s ∈
          firstSeen (df.rows.map (fun r => (presentCols declared df).map r)) :=
        (mem_firstSeen _ _).mpr (List.mem_map_of_mem _ hs)
      rw [← hproj] at hst
      obtain ⟨r, hr, hre⟩ := List.mem_map.mp hst
      exact ⟨r, hr, hre⟩
    · -- every built row carries an integer surrogate key
      intro r hr
      obtain ⟨p, _, rfl⟩ := List.mem_map.mp hr
      exact ⟨p.1, by simp⟩
    · -- the key column has no duplicates
      have hkeys :
          ((dropDupBy (fun r => (presentCols declared df).map r)
              (df.rows.map (fun r => fun c =>
                if c ∈ presentCols declared df then r c else Value.null))).enum.map
            (fun p => fun c => if c = key then Value.int (p.1 + 1) else p.2 c)).map
              (fun r => r key) =
          ((dropDupBy (fun r => (presentCols declared df).map r)
              (df.rows.map (fun r => fun c =>
                if c ∈ presentCols declared df then r c else Value.null))).enum.map
            Prod.fst).map (fun i : Nat => Value.int (i + 1)) := by
        rw [List.map_map, List.map_map]
        apply List.map_congr_left
        intro p _
        simp [Function.comp]
      rw [hkeys, List.enum_map_fst]
      apply List.Nodup.map
      · intro a b hab
        simp only [Value.int.injEq] at hab
        omega
      · exact List.nodup_range _
    · rw [hproj]
      exact nodup_firstSeen _

theorem merge_unique_match (left right : DataFrame) (onCols : List String)
    (hmatch : ∀ l ∈ left.rows, ∃ r ∈ right.rows, onCols.map r = onCols.map l) :
    ∀ u ∈ (merge left right onCols).rows, ∃ l ∈ left.rows, ∃ r ∈ right.rows,
      onCols.map r = onCols.map l ∧
      (∀ c, u c = if c ∈ left.cols then l c else r c) := by
  intro u hu
  obtain ⟨l, hl, hul⟩ := List.mem_flatMap.mp hu
  refine ⟨l, hl, ?_⟩
  by_cases hms : (right.rows.filter (fun r => decide (onCols.map r = onCols.map l))).isEmpty
  · exfalso
    obtain ⟨r, hr, hre⟩ := hmatch l hl
    have : r ∈ right.rows.filter (fun r => decide (onCols.map r = onCols.map l)) :=
      List.mem_filter.mpr ⟨hr, by simpa using hre⟩
    rw [List.isEmpty_iff.mp hms] at this
    exact absurd this (List.not_mem_nil r)
  · simp only [hms, if_false, Bool.false_eq_true] at hul
    obtain ⟨r, hr, hre⟩ := List.mem_map.mp hul
    have hrmem := List.mem_filter.mp hr
    refine ⟨r, hrmem.1, by simpa using hrmem.2, ?_⟩
    intro c
    exact (congrFun hre c).symm

theorem build_dim_ok_nonempty {declared : List String} {key : String} {df d : DataFrame}
    (h : build_dim declared key df = .ok d) :
    (presentCols declared df).isEmpty = false := by
  unfold build_dim at h
  by_cases hp : (presentCols declared df).isEmpty
  · rw [if_pos hp] at h
    exact absurd h (by intro hcon; cases hcon)
  · simpa using hp

theorem presentCols_sub {declared : List String} {df : DataFrame} {c : String}
    (h : c ∈ presentCols declared df) : c ∈ declared :=
  (List.mem_filter.mp h).1

theorem filter_not_mem_cons {key : String} {cols : List String} (h : key ∉ cols) :
    ((key :: cols).filter (fun c => decide (c ∉ cols))) = [key] := by
  rw [List.filter_cons_of_pos (by simpa using h)]
  have : cols.filter (fun c => decide (c ∉ cols)) = [] := by
    apply List.filter_eq_nil_iff.mpr
    intro a ha
    simpa using ha
  rw [this]

theorem merge_cols (left right : DataFrame) (onCols : List String) :
    (merge left right onCols).cols =
      left.cols ++ right.cols.filter (fun c => decide (c ∉ onCols)) := rfl

set_option maxHeartbeats 1000000 in
/-- C5: when the three dimension tables are built from the same source frame
as the fact build (and the surrogate-key column names do not collide with
source columns), every produced fact row's three foreign keys are non-null
integers, each resolving to exactly one row of its dimension table. -/
theorem c5_referential_integrity (source demo region risk : DataFrame)
    (hd : build_dim_demographics source = .ok demo)
    (hr : build_dim_region source = .ok region)
    (hk : build_dim_risk source = .ok risk)
    (hf1 : "demographics_key" ∉ source.cols)
    (hf2 : "region_key" ∉ source.cols)
    (hf3 : "risk_key" ∉ source.cols)
    (ws : List String) (rows : List (List Value))
    (heq : build_and_insert_fact source demo region risk = (ws, .ok rows)) :
    ∀ row ∈ rows,
      (∃ k1 : Int, row.getD 0 Value.null = .int k1 ∧
        (demo.rows.filter (fun d2 => decide (d2 "demographics_key" = Value.int k1))).length = 1) ∧
      (∃ k2 : Int, row.getD 1 Value.null = .int k2 ∧
        (region.rows.filter (fun d2 => decide (d2 "region_key" = Value.int k2))).length = 1) ∧
      (∃ k3 : Int, row.getD 2 Value.null = .int k3 ∧
        (risk.rows.filter (fun d2 => decide (d2 "risk_key" = Value.int k3))).length = 1) := by
  obtain ⟨hdcols, hdtot, hdkey, hdnodup, hdtup⟩ :=
    build_dim_ok_props demoDeclared "demographics_key" source demo (by decide) hd
  obtain ⟨hrcols, hrtot, hrkey, hrnodup, hrtup⟩ :=
    build_dim_ok_props ["region"] "region_key" source region (by decide) hr
  obtain ⟨hkcols, hktot, hkkey, hknodup, hktup⟩ :=
    build_dim_ok_props riskDeclared "risk_key" source risk (by decide) hk
  have hdp := build_dim_ok_nonempty hd
  have hrp := build_dim_ok_nonempty hr
  have hkp := build_dim_ok_nonempty hk
  -- "region" is a source column
  have hregmem : "region" ∈ source.cols := by
    by_cases h : "region" ∈ source.cols
    · exact h
    · exfalso
      have : presentCols ["region"] source = [] := by
        simp [presentCols, h]
      rw [this] at hrp
      exact absurd hrp (by simp)
  have hpcr : presentCols ["region"] source = ["region"] := by
    simp [presentCols, hregmem]
  -- the demographics join keys are exactly the present demographic columns
  have hdemoKeys : demoDeclared.filter
      (fun c => decide (c ∈ source.cols) && decide (c ∈ demo.cols)) =
      presentCols demoDeclared source := by
    unfold presentCols
    apply List.filter_congr
    intro c hc
    by_cases hcs : c ∈ source.cols
    · have hcd : c ∈ demo.cols := by
        rw [hdcols]
        exact List.mem_cons_of_mem _ (List.mem_filter.mpr ⟨hc, by simpa using hcs⟩)
      simp [hcs, hcd]
    · simp [hcs]
  -- column layout of the first two joined frames
  have hdknp : "demographics_key" ∉ presentCols demoDeclared source := by
    intro h
    exact absurd (presentCols_sub h) (by decide)
  have hfact1cols : (merge source demo (presentCols demoDeclared source)).cols =
      source.cols ++ ["demographics_key"] := by
    rw [merge_cols, hdcols]
    congr 1
    exact filter_not_mem_cons hdknp
  have hregcond : ("region" ∈ (merge source demo (presentCols demoDeclared source)).cols) ∧
      ("region" ∈ region.cols) := by
    constructor
    · rw [hfact1cols]
      exact List.mem_append_left _ hregmem
    · rw [hrcols, hpcr]
      exact List.mem_cons_of_mem _ (List.mem_cons_self _ _)
  have hfact2cols :
      (merge (merge source demo (presentCols demoDeclared source)) region ["region"]).cols =
      (source.cols ++ ["demographics_key"]) ++ ["region_key"] := by
    rw [merge_cols, hfact1cols, hrcols, hpcr]
    rfl
  -- the risk join keys are exactly the present risk columns
  have hriskKeys : riskDeclared.filter
      (fun c => decide (c ∈
          (merge (merge source demo (presentCols demoDeclared source)) region ["region"]).cols) &&
        decide (c ∈ risk.cols)) =
      presentCols riskDeclared source := by
    rw [show presentCols riskDeclared source =
      riskDeclared.filter (fun c => decide (c ∈ source.cols)) from rfl]
    have hckall : ∀ c2 ∈ riskDeclared,
        ¬ (c2 = "demographics_key") ∧ ¬ (c2 = "region_key") := by decide
    apply List.filter_congr
    intro c hc
    have hck := hckall c hc
    by_cases hcs : c ∈ source.cols
    · have hcf : c ∈ (merge (merge source demo (presentCols demoDeclared source))
          region ["region"]).cols := by
        rw [hfact2cols]
        exact List.mem_append_left _ (List.mem_append_left _ hcs)
      have hcr2 : c ∈ risk.cols := by
        rw [hkcols]
        exact List.mem_cons_of_mem _ (List.mem_filter.mpr ⟨hc, by simpa using hcs⟩)
      simp [hcf, hcr2, hcs]
    · have hcf : c ∉ (merge (merge source demo (presentCols demoDeclared source))
          region ["region"]).cols := by
        rw [hfact2cols]
        intro hmem
        rcases List.mem_append.mp hmem with hmem1 | hmem2
        · rcases List.mem_append.mp hmem1 with hmem3 | hmem4
          · exact hcs hmem3
          · exact hck.1 (by simpa using hmem4)
        · exact hck.2 (by simpa using hmem2)
      simp [hcf, hcs]
  -- column layout of the fully joined frame
  have hrknp : "risk_key" ∉ presentCols riskDeclared source := by
    intro h
    exact absurd (presentCols_sub h) (by decide)
  have hfact3cols :
      (merge (merge (merge source demo (presentCols demoDeclared source)) region ["region"])
        risk (presentCols riskDeclared source)).cols =
      ((source.cols ++ ["demographics_key"]) ++ ["region_key"]) ++ ["risk_key"] := by
    rw [merge_cols, hfact2cols, hkcols]
    congr 1
    exact filter_not_mem_cons hrknp
  have hdk3 : "demographics_key" ∈
      (merge (merge (merge source demo (presentCols demoDeclared source)) region ["region"])
        risk (presentCols riskDeclared source)).cols := by
    rw [hfact3cols]
    exact List.mem_append_left _ (List.mem_append_left _
      (List.mem_append_right _ (List.mem_singleton.mpr rfl)))
  have hrk3 : "region_key" ∈
      (merge (merge (merge source demo (presentCols demoDeclared source)) region ["region"])
        risk (presentCols riskDeclared source)).cols := by
    rw [hfact3cols]
    exact List.mem_append_left _ (List.mem_append_right _ (List.mem_singleton.mpr rfl))
  have hkk3 : "risk_key" ∈
      (merge (merge (merge source demo (presentCols demoDeclared source)) region ["region"])
        risk (presentCols riskDeclared source)).cols := by
    rw [hfact3cols]
    exact List.mem_append_right _ (List.mem_singleton.mpr rfl)
  -- reduce build_and_insert_fact at heq to the surviving branch
  simp only [build_and_insert_fact] at heq
  rw [hdemoKeys, hdp] at heq
  simp only [Bool.false_eq_true, if_false] at heq
  rw [if_pos hregcond] at heq
  rw [hriskKeys, hkp] at heq
  simp only [Bool.false_eq_true, if_false] at heq
  rw [if_neg (not_not_intro hdk3), if_neg (not_not_intro hkk3)] at heq
  by_cases hch : "charges" ∈
      (merge (merge (merge source demo (presentCols demoDeclared source)) region ["region"])
        risk (presentCols riskDeclared source)).cols
  case neg =>
    rw [if_pos (Or.inr hch)] at heq
    exact absurd (congrArg Prod.snd heq) (by simp)
  case pos =>
  rw [if_neg (by
    intro hor
    rcases hor with h1 | h2
    · exact h1 hrk3
    · exact h2 hch)] at heq
  by_cases hnn : ((merge (merge (merge source demo (presentCols demoDeclared source))
      region ["region"]) risk (presentCols riskDeclared source)).rows.all
      (fun r => factNotNullCols.all (fun c => decide (r c ≠ Value.null)))) = true
  case neg =>
    rw [if_neg hnn] at heq
    exact absurd (congrArg Prod.snd heq) (by simp)
  case pos =>
  rw [if_pos hnn] at heq
  have hrows : rows =
      (merge (merge (merge source demo (presentCols demoDeclared source)) region ["region"])
        risk (presentCols riskDeclared source)).rows.map (fun r =>
          (factNotNullCols ++ optionalFeatures.filter (fun c => decide (c ∈
            (merge (merge (merge source demo (presentCols demoDeclared source)) region ["region"])
              risk (presentCols riskDeclared source)).cols))).map r) :=
    (Except.ok.inj (congrArg Prod.snd heq)).symm
  -- every joined row traces back to a source row and unique dimension matches
  have hA := merge_unique_match source demo (presentCols demoDeclared source) hdtot
  have hmatch2 : ∀ u1 ∈ (merge source demo (presentCols demoDeclared source)).rows,
      ∃ g ∈ region.rows, (["region"] : List String).map g = (["region"] : List String).map u1 := by
    intro u1 hu1
    obtain ⟨s, hs, dd, hdd, hmt, hval⟩ := hA u1 hu1
    obtain ⟨g, hg, hge⟩ := hrtot s hs
    rw [hpcr] at hge
    refine ⟨g, hg, ?_⟩
    have hreg1 : u1 "region" = s "region" := by
      rw [hval "region", if_pos hregmem]
    simp only [List.map_cons, List.map_nil] at hge ⊢
    rw [hreg1]
    exact hge
  have hB := merge_unique_match (merge source demo (presentCols demoDeclared source))
    region ["region"] hmatch2
  have hmatch3 : ∀ u2 ∈ (merge (merge source demo (presentCols demoDeclared source))
      region ["region"]).rows,
      ∃ kr ∈ risk.rows, (presentCols riskDeclared source).map kr =
        (presentCols riskDeclared source).map u2 := by
    intro u2 hu2
    obtain ⟨u1, hu1, g, hg, hmt2, hval2⟩ := hB u2 hu2
    obtain ⟨s, hs, dd, hdd, hmt1, hval1⟩ := hA u1 hu1
    obtain ⟨kr, hkr, hkre⟩ := hktot s hs
    refine ⟨kr, hkr, ?_⟩
    rw [hkre]
    apply List.map_congr_left
    intro c hc
    have hcs : c ∈ source.cols := by
      have := (List.mem_filter.mp hc).2
      simpa using this
    have h2 : u2 c = u1 c := by
      rw [hval2 c, if_pos (by rw [hfact1cols]; exact List.mem_append_left _ hcs)]
    have h1 : u1 c = s c := by
      rw [hval1 c, if_pos hcs]
    rw [h2, h1]
  have hC := merge_unique_match (merge (merge source demo (presentCols demoDeclared source))
    region ["region"]) risk (presentCols riskDeclared source) hmatch3
  -- per-row conclusion
  intro row hrow
  rw [hrows] at hrow
  obtain ⟨u, hu, hue⟩ := List.mem_map.mp hrow
  obtain ⟨u2, hu2, kr, hkr, hmt3, hval3⟩ := hC u hu
  obtain ⟨u1, hu1, g, hg, hmt2, hval2⟩ := hB u2 hu2
  obtain ⟨s, hs, dd, hdd, hmt1, hval1⟩ := hA u1 hu1
  have hget0 : row.getD 0 Value.null = u "demographics_key" := by rw [← hue]; rfl
  have hget1 : row.getD 1 Value.null = u "region_key" := by rw [← hue]; rfl
  have hget2 : row.getD 2 Value.null = u "risk_key" := by rw [← hue]; rfl
  have hudk : u "demographics_key" = dd "demographics_key" := by
    rw [hval3 "demographics_key",
      if_pos (by rw [hfact2cols]
                 exact List.mem_append_left _ (List.mem_append_right _ (by simp))),
      hval2 "demographics_key",
      if_pos (by rw [hfact1cols]; exact List.mem_append_right _ (by simp)),
      hval1 "demographics_key", if_neg hf1]
  have hurk : u "region_key" = g "region_key" := by
    rw [hval3 "region_key",
      if_pos (by rw [hfact2cols]; exact List.mem_append_right _ (by simp)),
      hval2 "region_key",
      if_neg (by
        rw [hfact1cols]
        intro hmem
        rcases List.mem_append.mp hmem with h | h
        · exact hf2 h
        · simp at h)]
  have hukk : u "risk_key" = kr "risk_key" := by
    rw [hval3 "risk_key",
      if_neg (by
        rw [hfact2cols]
        intro hmem
        rcases List.mem_append.mp hmem with h | h
        · rcases List.mem_append.mp h with h2 | h2
          · exact hf3 h2
          · simp at h2
        · simp at h)]
  obtain ⟨n1, hn1⟩ := hdkey dd hdd
  obtain ⟨n2, hn2⟩ := hrkey g hg
  obtain ⟨n3, hn3⟩ := hkkey kr hkr
  refine ⟨⟨(n1 : Int) + 1, ?_, ?_⟩, ⟨(n2 : Int) + 1, ?_, ?_⟩, ⟨(n3 : Int) + 1, ?_, ?_⟩⟩
  · rw [hget0, hudk, hn1]
  · exact length_filter_key_eq_one (fun d2 => d2 "demographics_key") demo.rows
      (Value.int ((n1 : Int) + 1)) hdnodup (hn1 ▸ List.mem_map_of_mem _ hdd)
  · rw [hget1, hurk, hn2]
  · exact length_filter_key_eq_one (fun d2 => d2 "region_key") region.rows
      (Value.int ((n2 : Int) + 1)) hrnodup (hn2 ▸ List.mem_map_of_mem _ hg)
  · rw [hget2, hukk, hn3]
  · exact length_filter_key_eq_one (fun d2 => d2 "risk_key") risk.rows
      (Value.int ((n3 : Int) + 1)) hknodup (hn3 ▸ List.mem_map_of_mem _ hkr)

theorem build_dim_error_shape {declared : List String} {key : String} {df : DataFrame}
    {e : ETLError} (h : build_dim declared key df = .error e) :
    e = .schemaError ("No columns found for " ++ key) := by
  unfold build_dim at h
  by_cases hp : (presentCols declared df).isEmpty
  · rw [if_pos hp] at h
    exact (Except.error.inj h).symm
  · rw [if_neg hp] at h
    cases h

/-- C7: a rebuild is a full replace — running the builder again from the
state the first run produced yields the identical warehouse state (the
delete-then-insert makes the result depend only on the source data), and on a
successful build the result is independent of whatever state was there
before. -/
theorem c7_idempotent (analytic : DataFrame) (s s2 : DWState) :
    load_data_to_db analytic (load_data_to_db analytic s).1 = load_data_to_db analytic s ∧
    (∀ batch, etl_build analytic = .ok batch →
      (load_data_to_db analytic s).1 = (load_data_to_db analytic s2).1) := by
  constructor
  · unfold load_data_to_db
    cases hb : etl_build analytic <;> simp
  · intro batch hb
    unfold load_data_to_db
    rw [hb]

/-- C8: for every dimension grouping none of whose declared columns exists in
the source — whether demographics, region or risk — the builder fails with
`SchemaError` (the `ValueError` of the corresponding `build_dim_*`), the run
is aborted before commit, and the caller-visible store keeps its prior state
(the sqlite connection is closed without commit, rolling back the deletes);
an empty grouping likewise always fails with `SchemaError` (in the pipeline
the three groupings are hardcoded non-empty, so the empty grouping is only
reachable at the shared `build_dim` itself). -/
theorem c8_schema_abort (analytic : DataFrame) (s : DWState)
    (hmiss : presentCols demoDeclared analytic = [] ∨
      presentCols ["region"] analytic = [] ∨
      presentCols riskDeclared analytic = []) :
    ((load_data_to_db analytic s).1 = s ∧
      ∃ msg, (load_data_to_db analytic s).2 = some (.schemaError msg)) ∧
    (∀ key df2, build_dim [] key df2 =
      .error (.schemaError ("No columns found for " ++ key))) := by
  have hetl : ∃ msg, etl_build analytic = .error (.schemaError msg) := by
    cases hbd : build_dim_demographics analytic with
    | error e =>
        refine ⟨"No columns found for demographics_key", ?_⟩
        have he := build_dim_error_shape hbd
        unfold etl_build
        rw [hbd, he]
        rfl
    | ok demo =>
      cases hbr : build_dim_region analytic with
      | error e =>
          refine ⟨"No columns found for region_key", ?_⟩
          have he := build_dim_error_shape hbr
          unfold etl_build
          rw [hbd, hbr, he]
          rfl
      | ok region =>
        cases hbk : build_dim_risk analytic with
        | error e =>
            refine ⟨"No columns found for risk_key", ?_⟩
            have he := build_dim_error_shape hbk
            unfold etl_build
            rw [hbd, hbr, hbk, he]
            rfl
        | ok risk =>
            exfalso
            rcases hmiss with h | h | h
            · have hne := build_dim_ok_nonempty hbd
              rw [h] at hne
              exact absurd hne (by simp)
            · have hne := build_dim_ok_nonempty hbr
              rw [h] at hne
              exact absurd hne (by simp)
            · have hne := build_dim_ok_nonempty hbk
              rw [h] at hne
              exact absurd hne (by simp)
  obtain ⟨msg, hmsg⟩ := hetl
  refine ⟨⟨?_, msg, ?_⟩, fun key df2 => rfl⟩
  · unfold load_data_to_db
    rw [hmsg]
  · unfold load_data_to_db
    rw [hmsg]

/-- A fully populated prepared source frame (the spec's three-record
scenario, with all prepared columns present). -/
def dwSource : DataFrame :=
  ⟨["age", "sex", "bmi", "children", "smoker", "region", "charges",
    "age_group", "bmi_category", "smoker_flag"],
   [rowOf [("age", .int 20), ("sex", .str "m"), ("bmi", .num 22), ("children", .int 0),
           ("smoker", .str "no"), ("region", .str "east"), ("charges", .num 100),
           ("age_group", .str "young"), ("bmi_category", .str "normal"), ("smoker_flag", .int 0)],
    rowOf [("age", .int 30), ("sex", .str "f"), ("bmi", .num 25), ("children", .int 1),
           ("smoker", .str "yes"), ("region", .str "east"), ("charges", .num 300),
           ("age_group", .str "adult"), ("bmi_category", .str "over"), ("smoker_flag", .int 1)],
    rowOf [("age", .int 20), ("sex", .str "m"), ("bmi", .num 22), ("children", .int 0),
           ("smoker", .str "no"), ("region", .str "west"), ("charges", .num 50),
           ("age_group", .str "young"), ("bmi_category", .str "normal"), ("smoker_flag", .int 0)]]⟩

def dwDemo : DataFrame :=
  match build_dim_demographics dwSource with
  | .ok d => d
  | .error _ => ⟨[], []⟩

def dwRegion : DataFrame :=
  match build_dim_region dwSource with
  | .ok d => d
  | .error _ => ⟨[], []⟩

def dwRisk : DataFrame :=
  match build_dim_risk dwSource with
  | .ok d => d
  | .error _ => ⟨[], []⟩

/-- C5 witness: the referential-integrity theorem on the concrete three-row
source, whose fact build succeeds with three rows. -/
theorem c5_witness :
    ∃ ws rows, build_and_insert_fact dwSource dwDemo dwRegion dwRisk = (ws, .ok rows) ∧
      rows.length = 3 ∧
      ∀ row ∈ rows,
        (∃ k1 : Int, row.getD 0 Value.null = .int k1 ∧
          (dwDemo.rows.filter
            (fun d2 => decide (d2 "demographics_key" = Value.int k1))).length = 1) ∧
        (∃ k2 : Int, row.getD 1 Value.null = .int k2 ∧
          (dwRegion.rows.filter
            (fun d2 => decide (d2 "region_key" = Value.int k2))).length = 1) ∧
        (∃ k3 : Int, row.getD 2 Value.null = .int k3 ∧
          (dwRisk.rows.filter
            (fun d2 => decide (d2 "risk_key" = Value.int k3))).length = 1) := by
  refine ⟨_, _, rfl, rfl, ?_⟩
  exact c5_referential_integrity dwSource dwDemo dwRegion dwRisk rfl rfl rfl
    (by decide) (by decide) (by decide) _ _ rfl

/-- C7 witness: the idempotence theorem at the concrete source, from the
empty store and from two different non-empty stores. -/
theorem c7_witness :
    load_data_to_db dwSource (load_data_to_db dwSource ⟨[], [], [], []⟩).1 =
      load_data_to_db dwSource ⟨[], [], [], []⟩ ∧
    (load_data_to_db dwSource ⟨[], [], [], []⟩).1 =
      (load_data_to_db dwSource ⟨[[Value.int 9]], [], [], [[Value.int 7]]⟩).1 := by
  obtain ⟨h1, h2⟩ :=
    c7_idempotent dwSource ⟨[], [], [], []⟩ ⟨[[Value.int 9]], [], [], [[Value.int 7]]⟩
  exact ⟨h1, h2 _ rfl⟩

/-- A source with every grouping present except the region grouping. -/
def noRegionSource : DataFrame :=
  ⟨["age_group", "sex", "children", "smoker", "smoker_flag", "bmi_category", "charges"],
   [rowOf [("age_group", .str "young"), ("sex", .str "m"), ("children", .int 0),
           ("smoker", .str "no"), ("smoker_flag", .int 0), ("bmi_category", .str "normal"),
           ("charges", .num 100)]]⟩

/-- A source with the region and risk groupings present but none of the
demographics grouping's columns. -/
def noDemoSource : DataFrame :=
  ⟨["region", "smoker", "smoker_flag", "bmi_category", "charges"],
   [rowOf [("region", .str "east"), ("smoker", .str "no"), ("smoker_flag", .int 0),
           ("bmi_category", .str "normal"), ("charges", .num 100)]]⟩

/-- C8 witness: the abort theorem applied at two concrete sources with
non-empty prior stores — one lacking every demographics-grouping column, one
lacking the region column. -/
theorem c8_witness :
    (presentCols demoDeclared noDemoSource = [] ∧
      (load_data_to_db noDemoSource ⟨[[Value.int 1]], [], [], [[Value.int 2]]⟩).1 =
        ⟨[[Value.int 1]], [], [], [[Value.int 2]]⟩ ∧
      ∃ msg, (load_data_to_db noDemoSource ⟨[[Value.int 1]], [], [], [[Value.int 2]]⟩).2 =
        some (.schemaError msg)) ∧
    (presentCols ["region"] noRegionSource = [] ∧
      (load_data_to_db noRegionSource ⟨[[Value.int 3]], [], [], []⟩).1 =
        ⟨[[Value.int 3]], [], [], []⟩ ∧
      ∃ msg, (load_data_to_db noRegionSource ⟨[[Value.int 3]], [], [], []⟩).2 =
        some (.schemaError msg)) := by
  obtain ⟨⟨h1, h2⟩, -⟩ :=
    c8_schema_abort noDemoSource ⟨[[Value.int 1]], [], [], [[Value.int 2]]⟩
      (Or.inl (by decide))
  obtain ⟨⟨h3, h4⟩, -⟩ :=
    c8_schema_abort noRegionSource ⟨[[Value.int 3]], [], [], []⟩
      (Or.inr (Or.inl (by decide)))
  exact ⟨⟨by decide, h1, h2⟩, ⟨by decide, h3, h4⟩⟩

/-- A different source whose demographic combination does not appear in
`dwSource` — used to rebuild the demographics dimension from other data. -/
def mismatchSource : DataFrame :=
  ⟨["age_group", "sex", "children"],
   [rowOf [("age_group", .str "senior"), ("sex", .str "x"), ("children", .int 9)]]⟩

def mismatchDemo : DataFrame :=
  match build_dim_demographics mismatchSource with
  | .ok d => d
  | .error _ => ⟨[], []⟩

/-- C1: evaluating the fact build on the spec's simulated-mismatch scenario
(demographics dimension rebuilt from different data, so one source row lacks a
demographics key).  The data-quality warning *is* printed, but the row's NaN
key binds as NULL and `fact_insurance_charges.demographics_key` is declared
NOT NULL in `create_schema`, so the insert raises `IntegrityError` and the
build aborts — the row is not inserted with a null foreign key. -/
theorem c1_null_key_aborts_insert :
    build_and_insert_fact dwSource mismatchDemo dwRegion dwRisk =
      (["Warning: some rows have no matching demographics_key."],
       .error (.integrityError "NOT NULL constraint failed: fact_insurance_charges")) :=
  rfl
